import Mathlib

/-!
# Verification of the story-plotter synchronization core

A shallow embedding, in Lean 4, of the optimistic-concurrency synchronization
engine of the story-plotter repository:

* the document data model (`src/types`, `Project` and its entity collections);
* the conflict-resolution strategies of `useConflictResolution`
  (`resolveWithLocal`, `resolveWithServer`, `resolveWithMerge`, `mergeArrays`);
* the server `PUT /api/projects/[projectId]` handler (`route.ts`) and the
  version-snapshot operations of `lib/r2.ts`
  (`createVersionSnapshot`, `cleanupOldVersions`);
* the Zustand document store (`stores/project-store.ts`) as a state type plus
  an action type with one constructor per store operation;
* the autosave hook (`hooks/use-auto-save.ts`): the response handling of its
  `save` function, and its two-timer (debounce + max-staleness) scheduler.

Modelling conventions, used throughout:

* ISO-8601 timestamp strings are abstracted as `Nat` instants.  The code only
  ever compares timestamps for equality (`lastKnownTimestamp !== updatedAt`)
  or by order after `new Date(...)` conversion; both are preserved by the
  abstraction for well-formed ISO strings of the fixed format the code emits.
* The free-form fields of an entity (names, descriptions, tags, ...) are
  abstracted into a single `payload : String`; the synchronization core never
  inspects them, it only copies them around.
* JavaScript `Map` objects are modelled as association lists
  (`List (String × α)`): `Map.set` updates the unique existing entry in place
  (preserving iteration order) or appends, and `Map.values()` iterates in
  insertion order — exactly the behaviour of `setAssoc` below.
-/

set_option autoImplicit false

namespace StoryPlotter

/-! ## Data model (`src/types/index.ts`) -/

/-- `ProjectSettings` (`targetWordCount?: number; color?: string`); the
`customFields` record is part of the abstracted free-form data. -/
structure ProjectSettings where
  targetWordCount : Option Nat
  color : Option String
deriving DecidableEq

/-- A generic synchronized entity: `Character`, `Plotline`, `Location` and
`Note` all expose `id`, `updatedAt` and an `order` field to the sync core;
their remaining free-form fields are abstracted into `payload`. -/
structure Entity where
  id : String
  updatedAt : Nat
  order : Nat
  payload : String
deriving DecidableEq

/-- `Scene`: like `Entity` but the store's timeline operations also read and
write `timelinePosition` and `wordCount`. -/
structure Scene where
  id : String
  updatedAt : Nat
  order : Nat
  timelinePosition : Option Nat
  wordCount : Nat
  payload : String
deriving DecidableEq

/-- `TimelineEvent` (`id`, `sceneId`, `position`, `plotlineId?`).  The
`updatedAt` field is what `mergeArrays`'s generic bound
`T extends \x7b id: string; updatedAt: string \x7d` requires of the items it
merges. -/
structure TimelineEvent where
  id : String
  sceneId : String
  position : Nat
  plotlineId : Option String
  updatedAt : Nat
  payload : String
deriving DecidableEq

/-- `Timeline` (`events`, `viewMode`). -/
structure Timeline where
  events : List TimelineEvent
  viewMode : String
deriving DecidableEq

/-- `StoryBranch`: the fields the store's branch operations read
(`id`, `parentBranchId`, `scenes`, `updatedAt`); name/color/createdAt are
abstracted into `payload`. -/
structure StoryBranch where
  id : String
  parentBranchId : Option String
  scenes : List Scene
  updatedAt : Nat
  payload : String
deriving DecidableEq

/-- `Project`: the full document.  `branches` is optional in the TypeScript
sources (accessed as `project.branches ?? []`); it is modelled as a plain
list, the empty list standing for the absent field. -/
structure Project where
  id : String
  userId : String
  title : String
  description : String
  genre : String
  settings : ProjectSettings
  createdAt : Nat
  updatedAt : Nat
  updatedBy : String
  version : Nat
  characters : List Entity
  scenes : List Scene
  plotlines : List Entity
  locations : List Entity
  notes : List Entity
  timeline : Timeline
  branches : List StoryBranch
deriving DecidableEq

/-- `VersionSnapshot` (`lib/r2.ts`): one record in the remote version log. -/
structure VersionSnapshot where
  version : Nat
  projectId : String
  timestamp : Nat
  savedBy : String
  snapshot : Project
deriving DecidableEq

/-! ## `mergeArrays` (`useConflictResolution`, structural merge)

The source is generic over `T extends \x7b id: string; updatedAt: string \x7d`;
the class `SyncItem` plays the role of that bound. -/

/-- The generic bound of `mergeArrays`: anything with an `id` and an
`updatedAt`. -/
class SyncItem (α : Type) where
  id : α → String
  updatedAt : α → Nat

instance : SyncItem Entity := ⟨Entity.id, Entity.updatedAt⟩

instance : SyncItem Scene := ⟨Scene.id, Scene.updatedAt⟩

instance : SyncItem TimelineEvent := ⟨TimelineEvent.id, TimelineEvent.updatedAt⟩

/-- `Map.set`: update the (unique) existing entry for `k` in place, else
append `(k, v)` at the end. -/
def setAssoc {α : Type} : List (String × α) → String → α → List (String × α)
  | [], k, v => [(k, v)]
  | p :: ps, k, v => if p.1 = k then (k, v) :: ps else p :: setAssoc ps k v

/-- `Map.get`: the value at the (unique) entry for `k`, if any. -/
def lookupAssoc {α : Type} : List (String × α) → String → Option α
  | [], _ => none
  | p :: ps, k => if p.1 = k then some p.2 else lookupAssoc ps k

/-- First phase of `mergeArrays`: `server.forEach((item) =>
merged.set(item.id, item))`. -/
def insertServerItems {α : Type} [SyncItem α] (m : List (String × α))
    (items : List α) : List (String × α) :=
  items.foldl (fun acc it => setAssoc acc (SyncItem.id it) it) m

/-- Second phase of `mergeArrays`: for each local item, `merged.set` when
there is no entry yet or the local item's `updatedAt` is strictly greater
(`new Date(item.updatedAt) > new Date(existing.updatedAt)`). -/
def insertLocalItems {α : Type} [SyncItem α] (m : List (String × α))
    (items : List α) : List (String × α) :=
  items.foldl
    (fun acc it =>
      match lookupAssoc acc (SyncItem.id it) with
      | none => setAssoc acc (SyncItem.id it) it
      | some existing =>
        if SyncItem.updatedAt existing < SyncItem.updatedAt it then
          setAssoc acc (SyncItem.id it) it
        else acc)
    m

/-- `mergeArrays(local, server)`: union keyed by `id`, server items first,
then local items when new or strictly newer; result is
`Array.from(merged.values())`. -/
def mergeArrays {α : Type} [SyncItem α] (localItems serverItems : List α) :
    List α :=
  (insertLocalItems (insertServerItems [] serverItems) localItems).map
    (fun p => p.2)

/-- Lookup of an entity by `id` in a plain collection (first match, as
`Array.prototype.find`). -/
def findById {α : Type} [SyncItem α] : List α → String → Option α
  | [], _ => none
  | e :: es, i => if SyncItem.id e = i then some e else findById es i

/-- The `id`s of a collection, in order. -/
def idsOf {α : Type} [SyncItem α] (xs : List α) : List String :=
  xs.map SyncItem.id

/-! ## Conflict-resolution strategies (`useConflictResolution`) -/

/-- The ephemeral conflict record held by `useConflictResolution`
(`\x7b localVersion, serverVersion, serverTimestamp \x7d`). -/
structure ConflictData where
  localVersion : Project
  serverVersion : Project
  serverTimestamp : Nat
deriving DecidableEq

/-- `resolveWithLocal`: the local document restamped with
`version = serverVersion.version + 1` and `updatedAt = now`. -/
def resolveWithLocal (localVersion serverVersion : Project) (now : Nat) :
    Project :=
  { localVersion with version := serverVersion.version + 1, updatedAt := now }

/-- `resolveWithServer`: the server document verbatim. -/
def resolveWithServer (localVersion serverVersion : Project) : Project :=
  serverVersion

/-- `resolveWithMerge`: spread of `serverVersion` overridden by local
`title` (via the source's conditional), `description` and `genre`, the six
`mergeArrays` collections, and `version`/`updatedAt` restamped.  Note that
`settings` is *not* in the override list, so it is taken from the server
spread; the source also writes a stray top-level `targetWordCount` property
that does not exist on the `Project` type and is read by nothing, omitted
here. -/
def resolveWithMerge (localVersion serverVersion : Project) (now : Nat) :
    Project :=
  { serverVersion with
    title :=
      if localVersion.title ≠ serverVersion.title then localVersion.title
      else serverVersion.title,
    description := localVersion.description,
    genre := localVersion.genre,
    characters := mergeArrays localVersion.characters serverVersion.characters,
    scenes := mergeArrays localVersion.scenes serverVersion.scenes,
    plotlines := mergeArrays localVersion.plotlines serverVersion.plotlines,
    locations := mergeArrays localVersion.locations serverVersion.locations,
    notes := mergeArrays localVersion.notes serverVersion.notes,
    timeline :=
      { serverVersion.timeline with
        events :=
          mergeArrays localVersion.timeline.events
            serverVersion.timeline.events },
    version := serverVersion.version + 1,
    updatedAt := now }

/-! ## Server: `PUT /api/projects/[projectId]` (`route.ts`) and the version
log (`lib/r2.ts`)

The handler is modelled against the one storage slot it touches
(`storage.getProject(userId, projectId)` / `storage.setProject`) plus the
list of version snapshots stored under the project's `versions/` prefix.
The `route.ts` `PUT` performs no snapshot operation at all, which is why the
`snaps` component passes through every branch unchanged. -/

/-- The body of a `PUT` save request
(`\x7b project, lastKnownTimestamp, forceOverwrite \x7d`); the absent optional
`forceOverwrite` is the value `false`. -/
structure PutRequest where
  project : Project
  lastKnownTimestamp : Nat
  forceOverwrite : Bool
deriving DecidableEq

/-- The distinguishable responses of the `PUT` handler. -/
inductive PutResult where
  | unauthorized
  | notFound
  | forbidden
  | conflict (serverVersion clientVersion : Project) (serverTimestamp : Nat)
      (serverUpdatedBy : String)
  | ok (timestamp : Nat) (version : Nat)
deriving DecidableEq

/-- Result of a `PUT`: the HTTP-level response, the stored document after
the call, and the version-snapshot log after the call. -/
structure PutOutput where
  result : PutResult
  stored : Option Project
  snaps : List VersionSnapshot
deriving DecidableEq

/-- The `PUT` handler of `route.ts`: auth check, existence check, ownership
check, the optimistic-concurrency precondition
(`!forceOverwrite && lastKnownTimestamp !== serverProject.updatedAt` rejects
with 409), and on acceptance the server-computed restamp
`\x7b ...clientProject, id, userId, updatedAt: now, updatedBy, version:
serverProject.version + 1 \x7d`. -/
def PUT (session : Option String) (projectId : String)
    (stored : Option Project) (snaps : List VersionSnapshot)
    (req : PutRequest) (now : Nat) : PutOutput :=
  match session with
  | none => ⟨.unauthorized, stored, snaps⟩
  | some userId =>
    match stored with
    | none => ⟨.notFound, none, snaps⟩
    | some serverProject =>
      if serverProject.userId ≠ userId then ⟨.forbidden, stored, snaps⟩
      else if req.forceOverwrite = false ∧
          req.lastKnownTimestamp ≠ serverProject.updatedAt then
        ⟨.conflict serverProject req.project serverProject.updatedAt
            serverProject.updatedBy,
          stored, snaps⟩
      else
        let newVersion := serverProject.version + 1
        let updatedProject :=
          { req.project with
            id := projectId
            userId := userId
            updatedAt := now
            updatedBy := userId
            version := newVersion }
        ⟨.ok now newVersion, some updatedProject, snaps⟩

/-- Stable insertion of a snapshot into a list sorted by descending
`version`: an element is placed after every strictly newer one and before
equal-version ones, matching the stable JavaScript
`sort((a, b) => b.version - a.version)`. -/
def insertByVersionDesc (x : VersionSnapshot) :
    List VersionSnapshot → List VersionSnapshot
  | [] => [x]
  | y :: ys =>
    if x.version < y.version then y :: insertByVersionDesc x ys
    else x :: y :: ys

/-- `getVersions`' ordering: the snapshot list sorted by descending
`version` (stable insertion sort, extensionally the JavaScript stable
`Array.sort` under the comparator `b.version - a.version`). -/
def sortByVersionDesc : List VersionSnapshot → List VersionSnapshot
  | [] => []
  | x :: xs => insertByVersionDesc x (sortByVersionDesc xs)

/-- `cleanupOldVersions`: list the versions sorted newest-first, take
everything beyond the first 10 (`versions.slice(10)`) and delete those
objects from storage.  Deletion by key is modelled as filtering the stored
list (object keys are unique, so the stored list has no duplicates). -/
def cleanupOldVersions (snaps : List VersionSnapshot) :
    List VersionSnapshot :=
  let toDelete := (sortByVersionDesc snaps).drop 10
  snaps.filter (fun s => decide (s ∉ toDelete))

/-- `createVersionSnapshot`: write one snapshot record
`\x7b version, projectId, timestamp, savedBy, snapshot \x7d` for the current
document, then prune with `cleanupOldVersions`. -/
def createVersionSnapshot (now : Nat) (projectId : String)
    (project : Project) (snaps : List VersionSnapshot) :
    List VersionSnapshot :=
  cleanupOldVersions
    (snaps ++
      [{ version := project.version
         projectId := projectId
         timestamp := now
         savedBy := project.updatedBy
         snapshot := project }])

/-- Responses of `POST /api/projects/[projectId]/versions`. -/
inductive VersionsPostResult where
  | unauthorized
  | notFound
  | ok (version : Nat)
deriving DecidableEq

/-- The manual-snapshot endpoint `POST /api/projects/[projectId]/versions`:
auth, combined existence/ownership check
(`if (!project || project.userId !== userId)`), then
`createVersionSnapshot`. -/
def versionsPOST (session : Option String) (projectId : String)
    (stored : Option Project) (snaps : List VersionSnapshot) (now : Nat) :
    VersionsPostResult × List VersionSnapshot :=
  match session with
  | none => (.unauthorized, snaps)
  | some userId =>
    match stored with
    | none => (.notFound, snaps)
    | some project =>
      if project.userId ≠ userId then (.notFound, snaps)
      else (.ok project.version, createVersionSnapshot now projectId project snaps)

/-! ## Document store (`stores/project-store.ts`)

The Zustand store is modelled as a state record plus an action type with one
constructor per store operation, and `applyAction` as the transition
function.  Operations that read the ambient clock (`new Date()`) take the
instant as a `now` argument of the action.  Partial-update arguments
(`Partial<...>` spreads onto an entity) are abstracted as replacing the
entity's free-form `payload`.  The computed getters
(`getCharacterById`, ..., `getTotalWordCount`) read state without changing
it and are not actions. -/

/-- The store's state.  `acceptedVersion` is a history (ghost) variable, not
a field of the source state: it records the last document version stamped by
`setProject` or passed to `markClean` — i.e. the last version known to have
been accepted by the remote — so that the specification's "last accepted
version" can be stated. -/
structure StoreState where
  project : Option Project
  isLoading : Bool
  error : Option String
  isDirty : Bool
  lastSavedAt : Option Nat
  lastKnownTimestamp : Option Nat
  isSaving : Bool
  saveError : Option String
  acceptedVersion : Option Nat
deriving DecidableEq

/-- The `Partial` argument of `updateProjectMeta`. -/
structure MetaPatch where
  title : Option String
  description : Option String
  genre : Option String
  settings : Option ProjectSettings
deriving DecidableEq

/-- One constructor per state-changing store operation. -/
inductive StoreAction where
  | setProject (p : Option Project)
  | updateProjectMeta (patch : MetaPatch)
  | setLoading (b : Bool)
  | setError (e : Option String)
  | markDirty
  | markClean (timestamp : Nat) (version : Option Nat)
  | setSaving (b : Bool)
  | setSaveError (e : Option String)
  | setLastKnownTimestamp (timestamp : Nat)
  | addCharacter (c : Entity)
  | updateCharacter (id : String) (payload : String) (now : Nat)
  | deleteCharacter (id : String)
  | reorderCharacters (orderedIds : List String)
  | addScene (sc : Scene)
  | updateScene (id : String) (payload : String) (now : Nat)
  | deleteScene (id : String)
  | reorderScenes (orderedIds : List String)
  | addPlotline (p : Entity)
  | updatePlotline (id : String) (payload : String)
  | deletePlotline (id : String)
  | reorderPlotlines (orderedIds : List String)
  | addLocation (l : Entity)
  | updateLocation (id : String) (payload : String)
  | deleteLocation (id : String)
  | reorderLocations (orderedIds : List String)
  | addNote (n : Entity)
  | updateNote (id : String) (payload : String) (now : Nat)
  | deleteNote (id : String)
  | addBranch (b : StoryBranch)
  | updateBranch (id : String) (payload : String) (now : Nat)
  | deleteBranch (id : String)
  | addSceneToBranch (branchId : String) (sc : Scene) (now : Nat)
  | updateBranchScene (branchId sceneId : String) (payload : String) (now : Nat)
  | deleteBranchScene (branchId sceneId : String) (now : Nat)
  | reorderBranchScenes (branchId : String) (orderedIds : List String) (now : Nat)
  | updateTimeline (t : Timeline)
  | addTimelineEvent (e : TimelineEvent)
  | updateTimelineEvent (id : String) (payload : String)
  | deleteTimelineEvent (id : String)
  | reorderTimeline (orderedSceneIds : List String)
deriving DecidableEq

/-- The shared shape of every entity mutator:
`if (!state.project) return state; return \x7b project: f(project),
isDirty: true \x7d`. -/
def mutate (s : StoreState) (f : Project → Project) : StoreState :=
  match s.project with
  | none => s
  | some p => { s with project := some (f p), isDirty := true }

/-- `markClean(timestamp, version?)`: clear the dirty flag, stamp
`lastSavedAt`/`lastKnownTimestamp`, and restamp the in-memory document's
`updatedAt` (and `version` when supplied) to the server's values.  The ghost
`acceptedVersion` records the supplied version. -/
def markCleanStore (timestamp : Nat) (version : Option Nat)
    (s : StoreState) : StoreState :=
  { s with
    isDirty := false
    lastSavedAt := some timestamp
    lastKnownTimestamp := some timestamp
    project :=
      s.project.map (fun p =>
        { p with
          updatedAt := timestamp
          version := version.getD p.version })
    acceptedVersion :=
      match version with
      | some v => some v
      | none => s.acceptedVersion }

/-- `reorderCharacters` / `reorderPlotlines` / `reorderLocations`: build the
id-keyed map, walk `orderedIds` stamping `order := index`, drop unknown
ids. -/
def reorderEntities (xs : List Entity) (orderedIds : List String) :
    List Entity :=
  orderedIds.enum.filterMap (fun p =>
    match xs.find? (fun e => e.id == p.2) with
    | some e => some { e with order := p.1 }
    | none => none)

/-- `reorderScenes` (and branch-scene reordering): same shape for scenes. -/
def reorderSceneList (xs : List Scene) (orderedIds : List String) :
    List Scene :=
  orderedIds.enum.filterMap (fun p =>
    match xs.find? (fun e => e.id == p.2) with
    | some e => some { e with order := p.1 }
    | none => none)

/-- One round of `deleteBranch`'s `collect`: add every branch whose
`parentBranchId` is already collected. -/
def expandDescendants (branches : List StoryBranch) (acc : List String) :
    List String :=
  acc ++
    (branches.filter (fun b =>
      !(acc.contains b.id) &&
        (match b.parentBranchId with
         | some pb => acc.contains pb
         | none => false))).map (fun b => b.id)

/-- The transitive descendants of a branch (the recursive `collect` of
`deleteBranch`, written as a bounded fixpoint iteration — on the acyclic
parent graphs the recursion terminates on, `branches.length` rounds
reach the fixpoint). -/
def collectDescendants (branches : List StoryBranch) (rootId : String) :
    List String :=
  (expandDescendants branches)^[branches.length] [rootId]

/-- `new Map(orderedSceneIds.map((id, index) => [id, index])).get(sceneId)`. -/
def positionOf (orderedSceneIds : List String) (sceneId : String) :
    Option Nat :=
  (orderedSceneIds.enum.find? (fun p => p.2 == sceneId)).map (fun p => p.1)

/-- Strict order on reorder keys, `none` playing `Infinity`
(an event whose scene is not in the new order sorts last). -/
def posKeyLt (a b : Option Nat) : Bool :=
  match a, b with
  | none, _ => false
  | some _, none => true
  | some x, some y => x < y

/-- Stable ascending insertion for `reorderTimeline`'s event sort. -/
def insertByPos (orderedSceneIds : List String) (x : TimelineEvent) :
    List TimelineEvent → List TimelineEvent
  | [] => [x]
  | y :: ys =>
    if posKeyLt (positionOf orderedSceneIds y.sceneId)
        (positionOf orderedSceneIds x.sceneId) then
      y :: insertByPos orderedSceneIds x ys
    else x :: y :: ys

/-- `reorderTimeline`'s event sort: stable sort by new scene position
(extensionally the stable JavaScript `sort((a, b) => posA - posB)`). -/
def sortEventsByPos (orderedSceneIds : List String) :
    List TimelineEvent → List TimelineEvent
  | [] => []
  | x :: xs => insertByPos orderedSceneIds x (sortEventsByPos orderedSceneIds xs)

/-- The store's transition function: one case per operation, each following
its source body. -/
def applyAction (a : StoreAction) (s : StoreState) : StoreState :=
  match a with
  | .setProject p =>
    { s with
      project := p
      isDirty := false
      error := none
      lastKnownTimestamp := p.map (fun q => q.updatedAt)
      acceptedVersion := p.map (fun q => q.version) }
  | .updateProjectMeta patch =>
    mutate s (fun p =>
      { p with
        title := patch.title.getD p.title
        description := patch.description.getD p.description
        genre := patch.genre.getD p.genre
        settings := patch.settings.getD p.settings })
  | .setLoading b => { s with isLoading := b }
  | .setError e => { s with error := e }
  | .markDirty => { s with isDirty := true }
  | .markClean t v => markCleanStore t v s
  | .setSaving b => { s with isSaving := b }
  | .setSaveError e => { s with saveError := e }
  | .setLastKnownTimestamp t => { s with lastKnownTimestamp := some t }
  | .addCharacter c =>
    mutate s (fun p => { p with characters := p.characters ++ [c] })
  | .updateCharacter i pay now =>
    mutate s (fun p =>
      { p with
        characters :=
          p.characters.map (fun c =>
            if c.id == i then { c with payload := pay, updatedAt := now }
            else c) })
  | .deleteCharacter i =>
    mutate s (fun p =>
      { p with characters := p.characters.filter (fun c => c.id != i) })
  | .reorderCharacters ids =>
    mutate s (fun p =>
      { p with characters := reorderEntities p.characters ids })
  | .addScene sc =>
    mutate s (fun p => { p with scenes := p.scenes ++ [sc] })
  | .updateScene i pay now =>
    mutate s (fun p =>
      { p with
        scenes :=
          p.scenes.map (fun c =>
            if c.id == i then { c with payload := pay, updatedAt := now }
            else c) })
  | .deleteScene i =>
    mutate s (fun p =>
      { p with
        scenes := p.scenes.filter (fun c => c.id != i)
        timeline :=
          { p.timeline with
            events := p.timeline.events.filter (fun e => e.sceneId != i) } })
  | .reorderScenes ids =>
    mutate s (fun p => { p with scenes := reorderSceneList p.scenes ids })
  | .addPlotline pl =>
    mutate s (fun p => { p with plotlines := p.plotlines ++ [pl] })
  | .updatePlotline i pay =>
    mutate s (fun p =>
      { p with
        plotlines :=
          p.plotlines.map (fun c =>
            if c.id == i then { c with payload := pay } else c) })
  | .deletePlotline i =>
    mutate s (fun p =>
      { p with
        plotlines := p.plotlines.filter (fun c => c.id != i)
        timeline :=
          { p.timeline with
            events :=
              p.timeline.events.map (fun e =>
                if e.plotlineId == some i then { e with plotlineId := none }
                else e) } })
  | .reorderPlotlines ids =>
    mutate s (fun p => { p with plotlines := reorderEntities p.plotlines ids })
  | .addLocation l =>
    mutate s (fun p => { p with locations := p.locations ++ [l] })
  | .updateLocation i pay =>
    mutate s (fun p =>
      { p with
        locations :=
          p.locations.map (fun c =>
            if c.id == i then { c with payload := pay } else c) })
  | .deleteLocation i =>
    mutate s (fun p =>
      { p with locations := p.locations.filter (fun c => c.id != i) })
  | .reorderLocations ids =>
    mutate s (fun p => { p with locations := reorderEntities p.locations ids })
  | .addNote n =>
    mutate s (fun p => { p with notes := p.notes ++ [n] })
  | .updateNote i pay now =>
    mutate s (fun p =>
      { p with
        notes :=
          p.notes.map (fun c =>
            if c.id == i then { c with payload := pay, updatedAt := now }
            else c) })
  | .deleteNote i =>
    mutate s (fun p =>
      { p with notes := p.notes.filter (fun c => c.id != i) })
  | .addBranch b =>
    mutate s (fun p => { p with branches := p.branches ++ [b] })
  | .updateBranch i pay now =>
    mutate s (fun p =>
      { p with
        branches :=
          p.branches.map (fun b =>
            if b.id == i then { b with payload := pay, updatedAt := now }
            else b) })
  | .deleteBranch i =>
    mutate s (fun p =>
      { p with
        branches :=
          p.branches.filter (fun b =>
            !((collectDescendants p.branches i).contains b.id)) })
  | .addSceneToBranch bid sc now =>
    mutate s (fun p =>
      { p with
        branches :=
          p.branches.map (fun b =>
            if b.id == bid then
              { b with scenes := b.scenes ++ [sc], updatedAt := now }
            else b) })
  | .updateBranchScene bid sid pay now =>
    mutate s (fun p =>
      { p with
        branches :=
          p.branches.map (fun b =>
            if b.id == bid then
              { b with
                scenes :=
                  b.scenes.map (fun c =>
                    if c.id == sid then
                      { c with payload := pay, updatedAt := now }
                    else c)
                updatedAt := now }
            else b) })
  | .deleteBranchScene bid sid now =>
    mutate s (fun p =>
      { p with
        branches :=
          p.branches.map (fun b =>
            if b.id == bid then
              { b with
                scenes := b.scenes.filter (fun c => c.id != sid)
                updatedAt := now }
            else b) })
  | .reorderBranchScenes bid ids now =>
    mutate s (fun p =>
      { p with
        branches :=
          p.branches.map (fun b =>
            if b.id == bid then
              { b with scenes := reorderSceneList b.scenes ids, updatedAt := now }
            else b) })
  | .updateTimeline t =>
    mutate s (fun p => { p with timeline := t })
  | .addTimelineEvent e =>
    mutate s (fun p =>
      { p with
        timeline :=
          { p.timeline with events := p.timeline.events ++ [e] } })
  | .updateTimelineEvent i pay =>
    mutate s (fun p =>
      { p with
        timeline :=
          { p.timeline with
            events :=
              p.timeline.events.map (fun e =>
                if e.id == i then { e with payload := pay } else e) } })
  | .deleteTimelineEvent i =>
    mutate s (fun p =>
      { p with
        timeline :=
          { p.timeline with
            events := p.timeline.events.filter (fun e => e.id != i) } })
  | .reorderTimeline ids =>
    mutate s (fun p =>
      { p with
        scenes :=
          p.scenes.map (fun sc =>
            match positionOf ids sc.id with
            | some n => { sc with timelinePosition := some n }
            | none => sc)
        timeline :=
          { p.timeline with
            events :=
              (sortEventsByPos ids p.timeline.events).enum.map (fun q =>
                { q.2 with position := q.1 }) } })

/-- The clean-state consistency invariant, as a boolean predicate: a clean
store has `lastKnownTimestamp` equal to the document's `updatedAt`, and the
document's `version` always matches the last accepted version recorded by
the ghost `acceptedVersion`. -/
def invHolds (s : StoreState) : Bool :=
  match s.project with
  | none => true
  | some p =>
    (s.isDirty || s.lastKnownTimestamp == some p.updatedAt) &&
      s.acceptedVersion == some p.version

/-! ## Autosave hook (`hooks/use-auto-save.ts`)

Two pieces are embedded:

* the scheduler (`schedule` below): the subscription callback that, on every
  store mutation while dirty, resets the debounce timer and arms the
  max-staleness timer only if it is not already running.  Platform timers
  are modelled as absolute deadlines (`Option Nat`);
* the `save` function's response handling (`saveStep` below), for the
  default path (no `onSave` override): guard, debounce cancellation,
  `setSaving`, then `markClean(data.timestamp, data.version)` on a 2xx
  response, an early `return` on 409 (the response body is never read), and
  a caught thrown error otherwise, with `setSaving(false)` in `finally`.

`pendingConflict` embeds the `conflict` state of the separate
`useConflictResolution` hook, so that "control passes to the Conflict
Resolver" is statable: that state is only ever set by `showConflict`, which
no code on the save path calls. -/

/-- The two autosave timers as absolute deadlines. -/
structure SchedulerState where
  debounceDeadline : Option Nat
  maxDeadline : Option Nat
deriving DecidableEq

/-- The subscription callback `schedule()` at instant `now`: bail out when
not dirty; otherwise reset the debounce window and start the max-staleness
guard only when no max timer is running (`if (!maxTimerRef.current)`). -/
def schedule (now debounceMs maxIntervalMs : Nat) (isDirty : Bool)
    (s : SchedulerState) : SchedulerState :=
  if isDirty = false then s
  else
    { debounceDeadline := some (now + debounceMs)
      maxDeadline :=
        match s.maxDeadline with
        | some d => some d
        | none => some (now + maxIntervalMs) }

/-- A dirty period under continuous mutation: the first mutation at `t0`
followed by further mutations at the instants `ts`, the store dirty
throughout, starting from idle timers. -/
def runMutations (debounceMs maxIntervalMs t0 : Nat) (ts : List Nat) :
    SchedulerState :=
  ts.foldl (fun s t => schedule t debounceMs maxIntervalMs true s)
    (schedule t0 debounceMs maxIntervalMs true ⟨none, none⟩)

/-- The editing session visible to the autosave hook: the store, the
hook's `isSavingRef` re-entrancy guard and `enabled` flag, its timers, and
the conflict-resolver state (see the section comment). -/
structure ClientState where
  store : StoreState
  isSavingRef : Bool
  enabled : Bool
  sched : SchedulerState
  pendingConflict : Option ConflictData
deriving DecidableEq

/-- What the awaited `fetch` of a save attempt came back as: a 2xx JSON
body `\x7b timestamp, version \x7d`, a non-2xx status, or a thrown network
error. -/
inductive SaveResponse where
  | ok (timestamp : Nat) (version : Nat)
  | httpError (status : Nat)
  | netError
deriving DecidableEq

/-- How one invocation of `save` ended. -/
inductive SaveOutcome where
  | skipped
  | saved
  | conflictSkipped
  | failed
deriving DecidableEq

/-- One full run of the hook's `save` function whose network round trip
comes back as `resp`.  Mirrors the source order: the guard
(`!state.isDirty || isSavingRef.current || !state.project || !enabled`),
cancellation of the pending debounce, `setSaving(true)`, the response
handling (409 logs "Conflict detected — skipping" and returns; other
failures throw and are caught by the logging `catch`), and the `finally`
block's `setSaving(false)`. -/
def saveStep (c : ClientState) (resp : SaveResponse) :
    ClientState × SaveOutcome :=
  if c.store.isDirty = false ∨ c.isSavingRef = true ∨
      c.store.project = none ∨ c.enabled = false then
    (c, .skipped)
  else
    let c1 : ClientState :=
      { c with
        sched := { c.sched with debounceDeadline := none }
        isSavingRef := true
        store := { c.store with isSaving := true } }
    let step : ClientState × SaveOutcome :=
      match resp with
      | .ok t v =>
        ({ c1 with store := markCleanStore t (some v) c1.store }, .saved)
      | .httpError status =>
        if status = 409 then (c1, .conflictSkipped) else (c1, .failed)
      | .netError => (c1, .failed)
    ({ step.1 with
        store := { step.1.store with isSaving := false }
        isSavingRef := false },
      step.2)

/-! ## Concrete sample data, used to instantiate the theorems below -/

/-- A small concrete project (version 1, last written at instant 10 by its
owner `u1`). -/
def sampleProject : Project :=
  { id := "p1"
    userId := "u1"
    title := "Title"
    description := "Desc"
    genre := "Fantasy"
    settings := { targetWordCount := some 1000, color := none }
    createdAt := 0
    updatedAt := 10
    updatedBy := "u1"
    version := 1
    characters := []
    scenes := []
    plotlines := []
    locations := []
    notes := []
    timeline := { events := [], viewMode := "linear" }
    branches := [] }

/-- A dirty editing session holding `sampleProject`, with both timers armed
and no pending conflict. -/
def sampleClient : ClientState :=
  { store :=
      { project := some sampleProject
        isLoading := false
        error := none
        isDirty := true
        lastSavedAt := none
        lastKnownTimestamp := some 10
        isSaving := false
        saveError := none
        acceptedVersion := some 1 }
    isSavingRef := false
    enabled := true
    sched := { debounceDeadline := some 12, maxDeadline := some 40 }
    pendingConflict := none }

/-- A clean store state consistent with `sampleProject`. -/
def sampleCleanStore : StoreState :=
  { project := some sampleProject
    isLoading := false
    error := none
    isDirty := false
    lastSavedAt := some 10
    lastKnownTimestamp := some 10
    isSaving := false
    saveError := none
    acceptedVersion := some 1 }

/-- One stored version snapshot of `sampleProject`. -/
def sampleSnap : VersionSnapshot :=
  { version := 1, projectId := "p1", timestamp := 10, savedBy := "u1",
    snapshot := sampleProject }

/-- Entity `X` as edited locally at instant 10. -/
def entX10 : Entity := { id := "X", updatedAt := 10, order := 0, payload := "localX" }

/-- Entity `X` as edited remotely at instant 20. -/
def entX20 : Entity := { id := "X", updatedAt := 20, order := 0, payload := "remoteX" }

/-- Entity `Y`, present only locally. -/
def entY : Entity := { id := "Y", updatedAt := 5, order := 1, payload := "localY" }

/-- Entity `Z`, present only remotely. -/
def entZ : Entity := { id := "Z", updatedAt := 7, order := 1, payload := "remoteZ" }

/-- The local copy of an entity in an `updatedAt` tie. -/
def entTieLocal : Entity := { id := "X", updatedAt := 5, order := 0, payload := "local" }

/-- The remote copy of the entity of `entTieLocal`, same `updatedAt`,
different content. -/
def entTieRemote : Entity := { id := "X", updatedAt := 5, order := 0, payload := "remote" }

/-! ## Lemmas about the `mergeArrays` association-list machinery -/

theorem lookupAssoc_setAssoc_self {α : Type} :
    ∀ (m : List (String × α)) (k : String) (v : α),
      lookupAssoc (setAssoc m k v) k = some v
  | [], k, v => by simp [setAssoc, lookupAssoc]
  | p :: ps, k, v => by
    by_cases h : p.1 = k
    · simp [setAssoc, h, lookupAssoc]
    · simp only [setAssoc, if_neg h, lookupAssoc]
      exact lookupAssoc_setAssoc_self ps k v

theorem lookupAssoc_setAssoc_ne {α : Type} :
    ∀ (m : List (String × α)) (k k' : String) (v : α), k' ≠ k →
      lookupAssoc (setAssoc m k v) k' = lookupAssoc m k'
  | [], k, k', v, h => by
    simp only [setAssoc, lookupAssoc]
    rw [if_neg (fun hh : k = k' => h hh.symm)]
  | p :: ps, k, k', v, h => by
    by_cases hp : p.1 = k
    · simp only [setAssoc, if_pos hp, lookupAssoc]
      rw [if_neg (fun hh : k = k' => h hh.symm),
        if_neg (fun hh : p.1 = k' => h (hh ▸ hp))]
    · simp only [setAssoc, if_neg hp, lookupAssoc]
      by_cases hk : p.1 = k'
      · rw [if_pos hk, if_pos hk]
      · rw [if_neg hk, if_neg hk]
        exact lookupAssoc_setAssoc_ne ps k k' v h

theorem insertServerItems_cons {α : Type} [SyncItem α]
    (m : List (String × α)) (x : α) (xs : List α) :
    insertServerItems m (x :: xs) =
      insertServerItems (setAssoc m (SyncItem.id x) x) xs := rfl

theorem insertLocalItems_cons {α : Type} [SyncItem α]
    (m : List (String × α)) (x : α) (xs : List α) :
    insertLocalItems m (x :: xs) =
      insertLocalItems
        (match lookupAssoc m (SyncItem.id x) with
         | none => setAssoc m (SyncItem.id x) x
         | some existing =>
           if SyncItem.updatedAt existing < SyncItem.updatedAt x then
             setAssoc m (SyncItem.id x) x
           else m)
        xs := rfl

theorem lookupAssoc_insertServerItems_of_absent {α : Type} [SyncItem α] :
    ∀ (items : List α) (m : List (String × α)) (i : String),
      (∀ e ∈ items, SyncItem.id e ≠ i) →
      lookupAssoc (insertServerItems m items) i = lookupAssoc m i
  | [], m, i, _ => rfl
  | x :: xs, m, i, h => by
    rw [insertServerItems_cons,
      lookupAssoc_insertServerItems_of_absent xs _ i
        (fun e he => h e (List.mem_cons_of_mem x he)),
      lookupAssoc_setAssoc_ne]
    exact fun hh => h x (List.mem_cons_self x xs) hh.symm

theorem lookupAssoc_insertLocalItems_of_absent {α : Type} [SyncItem α] :
    ∀ (items : List α) (m : List (String × α)) (i : String),
      (∀ e ∈ items, SyncItem.id e ≠ i) →
      lookupAssoc (insertLocalItems m items) i = lookupAssoc m i
  | [], m, i, _ => rfl
  | x :: xs, m, i, h => by
    have hx : i ≠ SyncItem.id x :=
      fun hh => h x (List.mem_cons_self x xs) hh.symm
    have htail : ∀ e ∈ xs, SyncItem.id e ≠ i :=
      fun e he => h e (List.mem_cons_of_mem x he)
    rw [insertLocalItems_cons]
    cases hm : lookupAssoc m (SyncItem.id x) with
    | none =>
      simp only [hm]
      rw [lookupAssoc_insertLocalItems_of_absent xs _ i htail,
        lookupAssoc_setAssoc_ne _ _ _ _ hx]
    | some existing =>
      simp only [hm]
      by_cases hlt :
          SyncItem.updatedAt existing < SyncItem.updatedAt x
      · rw [if_pos hlt,
          lookupAssoc_insertLocalItems_of_absent xs _ i htail,
          lookupAssoc_setAssoc_ne _ _ _ _ hx]
      · rw [if_neg hlt,
          lookupAssoc_insertLocalItems_of_absent xs _ i htail]

theorem not_mem_ids_of_nodup {α : Type} [SyncItem α] (x : α) (xs : List α)
    (h : (idsOf (x :: xs)).Nodup) :
    ∀ e ∈ xs, SyncItem.id e ≠ SyncItem.id x := by
  simp only [idsOf, List.map_cons, List.nodup_cons] at h
  intro e he heq
  exact h.1 (heq ▸ List.mem_map_of_mem SyncItem.id he)

theorem nodup_ids_tail {α : Type} [SyncItem α] (x : α) (xs : List α)
    (h : (idsOf (x :: xs)).Nodup) : (idsOf xs).Nodup := by
  simp only [idsOf, List.map_cons, List.nodup_cons] at h
  simpa [idsOf] using h.2

theorem lookupAssoc_insertServerItems_found {α : Type} [SyncItem α] :
    ∀ (items : List α) (m : List (String × α)) (i : String) (e : α),
      (idsOf items).Nodup → findById items i = some e →
      lookupAssoc (insertServerItems m items) i = some e
  | [], m, i, e, _, hf => by simp [findById] at hf
  | x :: xs, m, i, e, hnd, hf => by
    rw [insertServerItems_cons]
    by_cases hx : SyncItem.id x = i
    · have he : x = e := by
        simp only [findById, if_pos hx, Option.some.injEq] at hf
        exact hf
      subst he
      rw [lookupAssoc_insertServerItems_of_absent xs _ i
          (fun e' he' hh =>
            not_mem_ids_of_nodup x xs hnd e' he' (hh.trans hx.symm)),
        ← hx]
      exact lookupAssoc_setAssoc_self m (SyncItem.id x) x
    · simp only [findById, if_neg hx] at hf
      exact lookupAssoc_insertServerItems_found xs _ i e
        (nodup_ids_tail x xs hnd) hf

theorem lookupAssoc_insertLocalItems_found {α : Type} [SyncItem α] :
    ∀ (items : List α) (m : List (String × α)) (i : String) (l : α),
      (idsOf items).Nodup → findById items i = some l →
      lookupAssoc (insertLocalItems m items) i =
        (match lookupAssoc m i with
         | none => some l
         | some e =>
           if SyncItem.updatedAt e < SyncItem.updatedAt l then some l
           else some e)
  | [], m, i, l, _, hf => by simp [findById] at hf
  | x :: xs, m, i, l, hnd, hf => by
    rw [insertLocalItems_cons]
    by_cases hx : SyncItem.id x = i
    · have hl : x = l := by
        simp only [findById, if_pos hx, Option.some.injEq] at hf
        exact hf
      subst hl
      have habs : ∀ e' ∈ xs, SyncItem.id e' ≠ i :=
        fun e' he' hh =>
          not_mem_ids_of_nodup x xs hnd e' he' (hh.trans hx.symm)
      rw [lookupAssoc_insertLocalItems_of_absent xs _ i habs]
      cases hm : lookupAssoc m (SyncItem.id x) with
      | none =>
        have hmi : lookupAssoc m i = none := hx ▸ hm
        simp only [hm, hmi]
        rw [← hx]
        exact lookupAssoc_setAssoc_self m (SyncItem.id x) x
      | some existing =>
        have hmi : lookupAssoc m i = some existing := hx ▸ hm
        simp only [hm, hmi]
        by_cases hlt :
            SyncItem.updatedAt existing < SyncItem.updatedAt x
        · rw [if_pos hlt, if_pos hlt, ← hx]
          exact lookupAssoc_setAssoc_self m (SyncItem.id x) x
        · rw [if_neg hlt, if_neg hlt]
          exact hmi
    · simp only [findById, if_neg hx] at hf
      have hstep :
          lookupAssoc
            (match lookupAssoc m (SyncItem.id x) with
             | none => setAssoc m (SyncItem.id x) x
             | some existing =>
               if SyncItem.updatedAt existing < SyncItem.updatedAt x then
                 setAssoc m (SyncItem.id x) x
               else m) i = lookupAssoc m i := by
        cases hm : lookupAssoc m (SyncItem.id x) with
        | none =>
          simp only [hm]
          exact lookupAssoc_setAssoc_ne _ _ _ _ fun hh => hx hh.symm
        | some existing =>
          simp only [hm]
          by_cases hlt :
              SyncItem.updatedAt existing < SyncItem.updatedAt x
          · rw [if_pos hlt]
            exact lookupAssoc_setAssoc_ne _ _ _ _ fun hh => hx hh.symm
          · rw [if_neg hlt]
      rw [lookupAssoc_insertLocalItems_found xs _ i l
          (nodup_ids_tail x xs hnd) hf, hstep]

/-- Every entry of the maps built by the merge has its value's `id` as its
key. -/
def KeyedById {α : Type} [SyncItem α] (m : List (String × α)) : Prop :=
  ∀ p ∈ m, SyncItem.id p.2 = p.1

theorem keyedById_setAssoc {α : Type} [SyncItem α] :
    ∀ (m : List (String × α)) (v : α), KeyedById m →
      KeyedById (setAssoc m (SyncItem.id v) v)
  | [], v, _ => by
    intro p hp
    simp only [setAssoc, List.mem_singleton] at hp
    subst hp; rfl
  | q :: qs, v, h => by
    intro p hp
    by_cases hq : q.1 = SyncItem.id v
    · simp only [setAssoc, if_pos hq, List.mem_cons] at hp
      rcases hp with hp | hp
      · subst hp; rfl
      · exact h p (List.mem_cons_of_mem q hp)
    · simp only [setAssoc, if_neg hq, List.mem_cons] at hp
      rcases hp with hp | hp
      · exact hp ▸ h q (List.mem_cons_self q qs)
      · exact keyedById_setAssoc qs v
          (fun r hr => h r (List.mem_cons_of_mem q hr)) p hp

theorem keyedById_insertServerItems {α : Type} [SyncItem α] :
    ∀ (items : List α) (m : List (String × α)), KeyedById m →
      KeyedById (insertServerItems m items)
  | [], m, h => h
  | x :: xs, m, h => by
    rw [insertServerItems_cons]
    exact keyedById_insertServerItems xs _ (keyedById_setAssoc m x h)

theorem keyedById_insertLocalItems {α : Type} [SyncItem α] :
    ∀ (items : List α) (m : List (String × α)), KeyedById m →
      KeyedById (insertLocalItems m items)
  | [], m, h => h
  | x :: xs, m, h => by
    rw [insertLocalItems_cons]
    refine keyedById_insertLocalItems xs _ ?_
    cases hm : lookupAssoc m (SyncItem.id x) with
    | none => simp only [hm]; exact keyedById_setAssoc m x h
    | some existing =>
      simp only [hm]
      by_cases hlt : SyncItem.updatedAt existing < SyncItem.updatedAt x
      · rw [if_pos hlt]; exact keyedById_setAssoc m x h
      · rw [if_neg hlt]; exact h

theorem findById_map_values {α : Type} [SyncItem α] :
    ∀ (m : List (String × α)) (i : String), KeyedById m →
      findById (m.map (fun p => p.2)) i = lookupAssoc m i
  | [], i, _ => rfl
  | p :: ps, i, h => by
    have hid : SyncItem.id p.2 = p.1 := h p (List.mem_cons_self p ps)
    by_cases hp : p.1 = i
    · simp only [List.map_cons, findById, lookupAssoc, hid]
      rw [if_pos hp, if_pos hp]
    · simp only [List.map_cons, findById, lookupAssoc, hid]
      rw [if_neg hp, if_neg hp]
      exact findById_map_values ps i
        (fun q hq => h q (List.mem_cons_of_mem p hq))

theorem findById_eq_none_iff {α : Type} [SyncItem α] :
    ∀ (xs : List α) (i : String),
      findById xs i = none ↔ ∀ e ∈ xs, SyncItem.id e ≠ i
  | [], i => by simp [findById]
  | x :: xs, i => by
    by_cases hx : SyncItem.id x = i
    · simp [findById, hx]
    · simp only [findById, if_neg hx]
      rw [findById_eq_none_iff xs i]
      constructor
      · intro h e he
        rcases List.mem_cons.mp he with he | he
        · subst he; exact hx
        · exact h e he
      · intro h e he
        exact h e (List.mem_cons_of_mem x he)

/-- Full characterization of a `mergeArrays` lookup, given that each input
collection has distinct entity ids. -/
theorem findById_mergeArrays {α : Type} [SyncItem α]
    (lcl srv : List α) (i : String)
    (hl : (idsOf lcl).Nodup) (hs : (idsOf srv).Nodup) :
    findById (mergeArrays lcl srv) i =
      (match findById lcl i, findById srv i with
       | none, o => o
       | some l, none => some l
       | some l, some r =>
         if SyncItem.updatedAt r < SyncItem.updatedAt l then some l
         else some r) := by
  have hwf : KeyedById (insertLocalItems (insertServerItems [] srv) lcl) :=
    keyedById_insertLocalItems lcl _
      (keyedById_insertServerItems srv [] (by intro p hp; cases hp))
  have hbase :
      findById (mergeArrays lcl srv) i =
        lookupAssoc (insertLocalItems (insertServerItems [] srv) lcl) i :=
    findById_map_values _ i hwf
  have hsrv :
      lookupAssoc (insertServerItems ([] : List (String × α)) srv) i =
        findById srv i := by
    match hr : findById srv i with
    | some r => exact lookupAssoc_insertServerItems_found srv [] i r hs hr
    | none =>
      exact lookupAssoc_insertServerItems_of_absent srv [] i
        ((findById_eq_none_iff srv i).mp hr)
  match hfl : findById lcl i with
  | some l =>
    rw [hbase,
      lookupAssoc_insertLocalItems_found lcl _ i l hl hfl, hsrv]
    match hr : findById srv i with
    | some r => rfl
    | none => rfl
  | none =>
    rw [hbase,
      lookupAssoc_insertLocalItems_of_absent lcl _ i
        ((findById_eq_none_iff lcl i).mp hfl),
      hsrv]

/-! ## Lemmas about the version-log retention (`cleanupOldVersions`) -/

theorem perm_insertByVersionDesc (x : VersionSnapshot) :
    ∀ (l : List VersionSnapshot),
      (insertByVersionDesc x l).Perm (x :: l)
  | [] => List.Perm.refl _
  | y :: ys => by
    by_cases h : x.version < y.version
    · simp only [insertByVersionDesc, if_pos h]
      exact ((perm_insertByVersionDesc x ys).cons y).trans
        (List.Perm.swap x y ys)
    · simp only [insertByVersionDesc, if_neg h]
      exact List.Perm.refl _

theorem perm_sortByVersionDesc :
    ∀ (l : List VersionSnapshot), (sortByVersionDesc l).Perm l
  | [] => List.Perm.refl _
  | x :: xs =>
    (perm_insertByVersionDesc x (sortByVersionDesc xs)).trans
      ((perm_sortByVersionDesc xs).cons x)

theorem pairwise_insertByVersionDesc (x : VersionSnapshot) :
    ∀ (l : List VersionSnapshot),
      l.Pairwise (fun a b => b.version ≤ a.version) →
      (insertByVersionDesc x l).Pairwise
        (fun a b => b.version ≤ a.version)
  | [], _ => by simp [insertByVersionDesc]
  | y :: ys, h => by
    rw [List.pairwise_cons] at h
    by_cases hlt : x.version < y.version
    · simp only [insertByVersionDesc, if_pos hlt]
      rw [List.pairwise_cons]
      refine ⟨fun z hz => ?_, pairwise_insertByVersionDesc x ys h.2⟩
      rcases List.mem_cons.mp
          ((perm_insertByVersionDesc x ys).mem_iff.mp hz) with hz | hz
      · exact hz ▸ Nat.le_of_lt hlt
      · exact h.1 z hz
    · simp only [insertByVersionDesc, if_neg hlt]
      have hyx : y.version ≤ x.version := Nat.le_of_not_lt hlt
      rw [List.pairwise_cons]
      refine ⟨fun z hz => ?_, List.pairwise_cons.mpr ⟨h.1, h.2⟩⟩
      rcases List.mem_cons.mp hz with hz | hz
      · exact hz ▸ hyx
      · exact Nat.le_trans (h.1 z hz) hyx

theorem pairwise_sortByVersionDesc :
    ∀ (l : List VersionSnapshot),
      (sortByVersionDesc l).Pairwise (fun a b => b.version ≤ a.version)
  | [] => List.Pairwise.nil
  | x :: xs =>
    pairwise_insertByVersionDesc x _ (pairwise_sortByVersionDesc xs)

theorem mem_cleanupOldVersions (snaps : List VersionSnapshot)
    (h : snaps.Nodup) (s : VersionSnapshot) :
    s ∈ cleanupOldVersions snaps ↔
      s ∈ (sortByVersionDesc snaps).take 10 := by
  have hperm := perm_sortByVersionDesc snaps
  have hnd : (sortByVersionDesc snaps).Nodup := hperm.nodup_iff.mpr h
  have hsplit :
      (sortByVersionDesc snaps).take 10 ++
          (sortByVersionDesc snaps).drop 10 =
        sortByVersionDesc snaps := List.take_append_drop 10 _
  have hdisj :
      ∀ a ∈ (sortByVersionDesc snaps).take 10,
        a ∉ (sortByVersionDesc snaps).drop 10 := by
    rw [← hsplit] at hnd
    intro a ha hb
    exact (List.disjoint_of_nodup_append hnd) ha hb
  constructor
  · intro hs
    rcases List.mem_filter.mp hs with ⟨hmem, hdec⟩
    have hnot : s ∉ (sortByVersionDesc snaps).drop 10 :=
      of_decide_eq_true hdec
    have : s ∈ sortByVersionDesc snaps := hperm.mem_iff.mpr hmem
    rcases List.mem_append.mp (hsplit ▸ this) with hs' | hs'
    · exact hs'
    · exact absurd hs' hnot
  · intro hs
    refine List.mem_filter.mpr ⟨?_, decide_eq_true (hdisj s hs)⟩
    exact hperm.mem_iff.mp
      (hsplit ▸ List.mem_append.mpr (Or.inl hs))

theorem length_cleanupOldVersions (snaps : List VersionSnapshot)
    (h : snaps.Nodup) : (cleanupOldVersions snaps).length ≤ 10 := by
  have hsub :
      cleanupOldVersions snaps ⊆ (sortByVersionDesc snaps).take 10 :=
    fun s hs => (mem_cleanupOldVersions snaps h s).mp hs
  have hnd : (cleanupOldVersions snaps).Nodup := List.Nodup.filter _ h
  exact Nat.le_trans (hnd.subperm hsub).length_le (List.length_take_le 10 _)

theorem version_le_of_evicted (snaps : List VersionSnapshot)
    (h : snaps.Nodup) (x y : VersionSnapshot)
    (hx : x ∈ cleanupOldVersions snaps) (hy : y ∈ snaps)
    (hyn : y ∉ cleanupOldVersions snaps) : y.version ≤ x.version := by
  have hperm := perm_sortByVersionDesc snaps
  have hsplit :
      (sortByVersionDesc snaps).take 10 ++
          (sortByVersionDesc snaps).drop 10 =
        sortByVersionDesc snaps := List.take_append_drop 10 _
  have hxk : x ∈ (sortByVersionDesc snaps).take 10 :=
    (mem_cleanupOldVersions snaps h x).mp hx
  have hyd : y ∈ (sortByVersionDesc snaps).drop 10 := by
    have hys : y ∈ sortByVersionDesc snaps := hperm.mem_iff.mpr hy
    rcases List.mem_append.mp (hsplit ▸ hys) with hy' | hy'
    · exact absurd ((mem_cleanupOldVersions snaps h y).mpr hy') hyn
    · exact hy'
  have hpw := pairwise_sortByVersionDesc snaps
  rw [← hsplit] at hpw
  exact (List.pairwise_append.mp hpw).2.2 x hxk y hyd

/-! ## Lemma about the max-staleness deadline -/

theorem maxDeadline_schedule_preserved (now d m : Nat) (dirty : Bool)
    (s : SchedulerState) (v : Nat) (h : s.maxDeadline = some v) :
    (schedule now d m dirty s).maxDeadline = some v := by
  by_cases hd : dirty = false
  · simp [schedule, hd, h]
  · simp [schedule, hd, h]

theorem maxDeadline_foldl_preserved (d m : Nat) :
    ∀ (ts : List Nat) (s : SchedulerState) (v : Nat),
      s.maxDeadline = some v →
      ((ts.foldl (fun s t => schedule t d m true s) s).maxDeadline = some v)
  | [], s, v, h => h
  | t :: ts, s, v, h => by
    rw [List.foldl_cons]
    exact maxDeadline_foldl_preserved d m ts _ v
      (maxDeadline_schedule_preserved t d m true s v h)

/-! ## Lemmas about the `PUT` handler -/

theorem PUT_accepts (u pid : String) (sp : Project)
    (snaps : List VersionSnapshot) (req : PutRequest) (now : Nat)
    (hown : sp.userId = u)
    (hacc : req.forceOverwrite = true ∨ req.lastKnownTimestamp = sp.updatedAt) :
    PUT (some u) pid (some sp) snaps req now =
      ⟨.ok now (sp.version + 1),
        some { req.project with
               id := pid
               userId := u
               updatedAt := now
               updatedBy := u
               version := sp.version + 1 },
        snaps⟩ := by
  have hno : ¬(req.forceOverwrite = false ∧
      req.lastKnownTimestamp ≠ sp.updatedAt) := by
    rintro ⟨h1, h2⟩
    rcases hacc with h | h
    · simp [h] at h1
    · exact h2 h
  simp only [PUT]
  rw [if_neg (fun hc => hc hown), if_neg hno]

theorem PUT_rejects (u pid : String) (sp : Project)
    (snaps : List VersionSnapshot) (req : PutRequest) (now : Nat)
    (hown : sp.userId = u)
    (hforce : req.forceOverwrite = false)
    (hts : req.lastKnownTimestamp ≠ sp.updatedAt) :
    PUT (some u) pid (some sp) snaps req now =
      ⟨.conflict sp req.project sp.updatedAt sp.updatedBy, some sp,
        snaps⟩ := by
  simp only [PUT]
  rw [if_neg (fun hc => hc hown), if_pos ⟨hforce, hts⟩]

/-! ## Lemmas about the store invariant -/

theorem invHolds_version_part (s : StoreState) (hinv : invHolds s = true) :
    ∀ p, s.project = some p →
      (s.acceptedVersion == some p.version) = true := by
  intro p hp
  simp only [invHolds, hp, Bool.and_eq_true] at hinv
  exact hinv.2

theorem invHolds_mutate (s : StoreState) (f : Project → Project)
    (hinv : invHolds s = true) (hv : ∀ p, (f p).version = p.version) :
    invHolds (mutate s f) = true := by
  cases hp : s.project with
  | none => simpa [mutate, hp] using hinv
  | some p =>
    have h2 := invHolds_version_part s hinv p hp
    simp [mutate, hp, invHolds, hv p, h2]

/-! ## Claim theorems -/

/-- Claim C1: for a `PUT` save request from the authenticated owner of an
existing document, the server accepts and writes iff `forceOverwrite` is
true or the request's `lastKnownTimestamp` equals the stored document's
`updatedAt`; on acceptance it stores the document restamped with
`updatedAt = now` and `version = stored version + 1`, and on rejection it
returns a 409 conflict carrying the stored document, its timestamp and its
last writer (`updatedBy`), leaving the stored document unchanged. -/
theorem put_save_acceptance_rule (u pid : String) (sp : Project)
    (snaps : List VersionSnapshot) (req : PutRequest) (now : Nat)
    (hown : sp.userId = u) :
    ((req.forceOverwrite = true ∨ req.lastKnownTimestamp = sp.updatedAt) →
      PUT (some u) pid (some sp) snaps req now =
        ⟨.ok now (sp.version + 1),
          some { req.project with
                 id := pid
                 userId := u
                 updatedAt := now
                 updatedBy := u
                 version := sp.version + 1 },
          snaps⟩) ∧
    (req.forceOverwrite = false → req.lastKnownTimestamp ≠ sp.updatedAt →
      PUT (some u) pid (some sp) snaps req now =
        ⟨.conflict sp req.project sp.updatedAt sp.updatedBy, some sp,
          snaps⟩) :=
  ⟨fun hacc => PUT_accepts u pid sp snaps req now hown hacc,
   fun hforce hts => PUT_rejects u pid sp snaps req now hown hforce hts⟩

/-- Witness for C1 at concrete inputs: a matching-timestamp save is
accepted and stored restamped; a stale-timestamp save is rejected with the
stored document unchanged. -/
theorem put_save_acceptance_rule_witness :
    sampleProject.userId = "u1" ∧
    PUT (some "u1") "p1" (some sampleProject) []
        ⟨sampleProject, 10, false⟩ 20 =
      ⟨.ok 20 (sampleProject.version + 1),
        some { sampleProject with
               id := "p1"
               userId := "u1"
               updatedAt := 20
               updatedBy := "u1"
               version := sampleProject.version + 1 },
        []⟩ ∧
    PUT (some "u1") "p1" (some sampleProject) []
        ⟨sampleProject, 99, false⟩ 20 =
      ⟨.conflict sampleProject sampleProject sampleProject.updatedAt
          sampleProject.updatedBy,
        some sampleProject, []⟩ :=
  ⟨rfl,
   (put_save_acceptance_rule "u1" "p1" sampleProject []
       ⟨sampleProject, 10, false⟩ 20 rfl).1 (Or.inr rfl),
   (put_save_acceptance_rule "u1" "p1" sampleProject []
       ⟨sampleProject, 99, false⟩ 20 rfl).2 rfl (by decide)⟩

/-- Claim C10: on every accepted `PUT`, the stored document's `id`,
`userId`, `updatedAt`, `updatedBy` and `version` are the server-computed
values — the spread `\x7b ...clientProject \x7d` is overridden on those five
fields for every client-supplied document `req.project`, so in particular a
client-stamped `version` (such as the `remoteVersion + 1` stamped by
`resolveWithLocal` or `resolveWithMerge`) never reaches storage: the stored
`version` is always computed from the server-side document. -/
theorem put_server_stamps_metadata (u pid : String) (sp : Project)
    (snaps : List VersionSnapshot) (req : PutRequest) (now : Nat)
    (hown : sp.userId = u)
    (hacc : req.forceOverwrite = true ∨ req.lastKnownTimestamp = sp.updatedAt) :
    (PUT (some u) pid (some sp) snaps req now).stored =
      some { req.project with
             id := pid
             userId := u
             updatedAt := now
             updatedBy := u
             version := sp.version + 1 } := by
  rw [PUT_accepts u pid sp snaps req now hown hacc]

/-- Witness for C10: a client document carrying garbage metadata (version
999, foreign ids and timestamps) is stored with every metadata field
replaced by the server-computed value. -/
theorem put_server_stamps_metadata_witness :
    (PUT (some "u1") "p1" (some sampleProject) []
        ⟨{ sampleProject with
           id := "evil"
           userId := "intruder"
           updatedAt := 777
           updatedBy := "intruder"
           version := 999 },
          10, false⟩ 20).stored =
      some { sampleProject with
             id := "p1"
             userId := "u1"
             updatedAt := 20
             updatedBy := "u1"
             version := sampleProject.version + 1 } := by
  rw [put_server_stamps_metadata "u1" "p1" sampleProject []
      ⟨{ sampleProject with
         id := "evil"
         userId := "intruder"
         updatedAt := 777
         updatedBy := "intruder"
         version := 999 },
        10, false⟩ 20 rfl (Or.inr rfl)]

/-- Claim C2 (amended): when a save attempt comes back 409, the autosave
hook drops the conflict: the outcome is the logged skip, the conflict
resolver is never invoked (its pending-conflict state is untouched — the
hook does not even read the 409 body), the debounce timer stays cancelled
rather than re-armed, and the store keeps its dirty flag and document, so
only a later mutation or the still-armed max-staleness timer leads to a
retry. -/
theorem save_conflict_dropped (c : ClientState)
    (hd : c.store.isDirty = true) (hs : c.isSavingRef = false)
    (hp : c.store.project ≠ none) (he : c.enabled = true) :
    (saveStep c (SaveResponse.httpError 409)).2 =
        SaveOutcome.conflictSkipped ∧
    (saveStep c (SaveResponse.httpError 409)).1.pendingConflict =
        c.pendingConflict ∧
    (saveStep c (SaveResponse.httpError 409)).1.sched.debounceDeadline =
        none ∧
    (saveStep c (SaveResponse.httpError 409)).1.store.isDirty = true ∧
    (saveStep c (SaveResponse.httpError 409)).1.store.project =
        c.store.project := by
  simp [saveStep, hd, hs, hp, he]

/-- Witness for the amended C2 at the concrete dirty session. -/
theorem save_conflict_dropped_witness :
    (saveStep sampleClient (SaveResponse.httpError 409)).2 =
        SaveOutcome.conflictSkipped ∧
    (saveStep sampleClient (SaveResponse.httpError 409)).1.pendingConflict =
        sampleClient.pendingConflict ∧
    (saveStep sampleClient (SaveResponse.httpError 409)).1.sched.debounceDeadline =
        none ∧
    (saveStep sampleClient (SaveResponse.httpError 409)).1.store.isDirty =
        true ∧
    (saveStep sampleClient (SaveResponse.httpError 409)).1.store.project =
        sampleClient.store.project :=
  save_conflict_dropped sampleClient rfl rfl (by decide) rfl

/-- Counterexample to C2 as stated: at a concrete dirty session receiving a
409, no control passes to the Conflict Resolver (the resolver state stays
`none`) and the session is not back in Debouncing (the debounce deadline is
`none`); the conflict is logged and dropped. -/
theorem save_conflict_dropped_cex :
    (saveStep sampleClient (SaveResponse.httpError 409)).1.pendingConflict =
        none ∧
    (saveStep sampleClient (SaveResponse.httpError 409)).1.sched.debounceDeadline =
        none ∧
    (saveStep sampleClient (SaveResponse.httpError 409)).2 =
        SaveOutcome.conflictSkipped := by
  decide

/-- Claim C6: on a failed save attempt (a non-409 error response or a
thrown network error), the dirty flag remains set and the in-memory
document is unchanged — `markClean` is never invoked
(`lastSavedAt`/`lastKnownTimestamp` keep their values) and no local edits
are discarded. -/
theorem save_failure_preserves_document (c : ClientState)
    (resp : SaveResponse)
    (hd : c.store.isDirty = true) (hs : c.isSavingRef = false)
    (hp : c.store.project ≠ none) (he : c.enabled = true)
    (hfail : (∃ st, resp = SaveResponse.httpError st ∧ st ≠ 409) ∨
      resp = SaveResponse.netError) :
    (saveStep c resp).2 = SaveOutcome.failed ∧
    (saveStep c resp).1.store.isDirty = true ∧
    (saveStep c resp).1.store.project = c.store.project ∧
    (saveStep c resp).1.store.lastKnownTimestamp =
        c.store.lastKnownTimestamp ∧
    (saveStep c resp).1.store.lastSavedAt = c.store.lastSavedAt := by
  rcases hfail with ⟨st, hst, hne⟩ | hnet
  · subst hst
    simp [saveStep, hd, hs, hp, he, hne]
  · subst hnet
    simp [saveStep, hd, hs, hp, he]

/-- Witness for C6: a thrown network error at the concrete dirty session
fails the attempt and leaves the store untouched. -/
theorem save_failure_preserves_document_witness :
    (saveStep sampleClient SaveResponse.netError).2 = SaveOutcome.failed ∧
    (saveStep sampleClient SaveResponse.netError).1.store.isDirty = true ∧
    (saveStep sampleClient SaveResponse.netError).1.store.project =
        sampleClient.store.project ∧
    (saveStep sampleClient SaveResponse.netError).1.store.lastKnownTimestamp =
        sampleClient.store.lastKnownTimestamp ∧
    (saveStep sampleClient SaveResponse.netError).1.store.lastSavedAt =
        sampleClient.store.lastSavedAt :=
  save_failure_preserves_document sampleClient SaveResponse.netError rfl rfl
    (by decide) rfl (Or.inr rfl)

/-- Claim C3: the structural merge produces, for each of the six entity
collections (characters, scenes, plotlines, locations, notes, timeline
events), `mergeArrays` of the two sides — the union keyed by entity `id`:
an id in both sides yields the entity with the strictly greater
`updatedAt`, an id only local is retained, an id only remote is retained
(stated for collections with distinct ids, which entity collections
have). -/
theorem structural_merge_union :
    (∀ (lp rp : Project) (now : Nat),
      (resolveWithMerge lp rp now).characters =
          mergeArrays lp.characters rp.characters ∧
      (resolveWithMerge lp rp now).scenes =
          mergeArrays lp.scenes rp.scenes ∧
      (resolveWithMerge lp rp now).plotlines =
          mergeArrays lp.plotlines rp.plotlines ∧
      (resolveWithMerge lp rp now).locations =
          mergeArrays lp.locations rp.locations ∧
      (resolveWithMerge lp rp now).notes =
          mergeArrays lp.notes rp.notes ∧
      (resolveWithMerge lp rp now).timeline.events =
          mergeArrays lp.timeline.events rp.timeline.events) ∧
    (∀ (α : Type) [SyncItem α] (lcl srv : List α) (i : String),
      (idsOf lcl).Nodup → (idsOf srv).Nodup →
      (∀ l r, findById lcl i = some l → findById srv i = some r →
        SyncItem.updatedAt r < SyncItem.updatedAt l →
        findById (mergeArrays lcl srv) i = some l) ∧
      (∀ l r, findById lcl i = some l → findById srv i = some r →
        SyncItem.updatedAt l < SyncItem.updatedAt r →
        findById (mergeArrays lcl srv) i = some r) ∧
      (∀ l, findById lcl i = some l → findById srv i = none →
        findById (mergeArrays lcl srv) i = some l) ∧
      (∀ r, findById lcl i = none → findById srv i = some r →
        findById (mergeArrays lcl srv) i = some r) ∧
      (findById lcl i = none → findById srv i = none →
        findById (mergeArrays lcl srv) i = none)) := by
  refine ⟨fun lp rp now => ⟨rfl, rfl, rfl, rfl, rfl, rfl⟩,
    fun α _ lcl srv i hl hs => ⟨?_, ?_, ?_, ?_, ?_⟩⟩
  · intro l r hfl hfr hlt
    rw [findById_mergeArrays lcl srv i hl hs, hfl, hfr]
    simp [hlt]
  · intro l r hfl hfr hlt
    rw [findById_mergeArrays lcl srv i hl hs, hfl, hfr]
    simp [Nat.lt_asymm hlt]
  · intro l hfl hfr
    rw [findById_mergeArrays lcl srv i hl hs, hfl, hfr]
  · intro r hfl hfr
    rw [findById_mergeArrays lcl srv i hl hs, hfl, hfr]
  · intro hfl hfr
    rw [findById_mergeArrays lcl srv i hl hs, hfl, hfr]

/-- Witness for C3 on the specification's own example: id `X` local at 10
vs remote at 20 merges to the remote copy, `Y` only local is retained, `Z`
only remote is retained. -/
theorem structural_merge_union_witness :
    findById (mergeArrays [entX10, entY] [entX20, entZ]) "X" =
        some entX20 ∧
    findById (mergeArrays [entX10, entY] [entX20, entZ]) "Y" = some entY ∧
    findById (mergeArrays [entX10, entY] [entX20, entZ]) "Z" = some entZ := by
  have hX :=
    (structural_merge_union.2 Entity [entX10, entY] [entX20, entZ] "X"
        (by decide) (by decide)).2.1 entX10 entX20 (by decide) (by decide)
        (by decide)
  have hY :=
    (structural_merge_union.2 Entity [entX10, entY] [entX20, entZ] "Y"
        (by decide) (by decide)).2.2.1 entY (by decide) (by decide)
  have hZ :=
    (structural_merge_union.2 Entity [entX10, entY] [entX20, entZ] "Z"
        (by decide) (by decide)).2.2.2.1 entZ (by decide) (by decide)
  exact ⟨hX, hY, hZ⟩

/-- Claim C4 (amended): when two entities share an `id` and have identical
`updatedAt`, the merge retains the *remote* (server) entity, not the local
one — the local copy only replaces the server copy under the strict
comparison `new Date(local.updatedAt) > new Date(existing.updatedAt)`. -/
theorem merge_tie_keeps_remote (α : Type) [SyncItem α]
    (lcl srv : List α) (i : String) (l r : α)
    (hl : (idsOf lcl).Nodup) (hs : (idsOf srv).Nodup)
    (hfl : findById lcl i = some l) (hfr : findById srv i = some r)
    (heq : SyncItem.updatedAt l = SyncItem.updatedAt r) :
    findById (mergeArrays lcl srv) i = some r := by
  rw [findById_mergeArrays lcl srv i hl hs, hfl, hfr]
  simp [heq, Nat.lt_irrefl]

/-- Witness for the amended C4 at concrete tied entities. -/
theorem merge_tie_keeps_remote_witness :
    findById (mergeArrays [entTieLocal] [entTieRemote]) "X" =
      some entTieRemote :=
  merge_tie_keeps_remote Entity [entTieLocal] [entTieRemote] "X"
    entTieLocal entTieRemote (by decide) (by decide) (by decide) (by decide)
    (by decide)

/-- Counterexample to C4 as stated: for concrete entities sharing id `X`
with identical `updatedAt`, the merge result contains the remote entity,
which differs from the local one — not the local entity as claimed. -/
theorem merge_tie_keeps_remote_cex :
    findById (mergeArrays [entTieLocal] [entTieRemote]) "X" =
        some entTieRemote ∧
    entTieRemote ≠ entTieLocal := by
  decide

/-- Claim C5 (amended): in the structural merge the document-level scalars
`title`, `description` and `genre` take the local document's value, but
`settings` is *not* overridden — it comes from the spread of the server
document, so the remote value wins for `settings` even when the local value
differs. -/
theorem merge_scalar_fields (lp rp : Project) (now : Nat) :
    (resolveWithMerge lp rp now).title = lp.title ∧
    (resolveWithMerge lp rp now).description = lp.description ∧
    (resolveWithMerge lp rp now).genre = lp.genre ∧
    (resolveWithMerge lp rp now).settings = rp.settings := by
  refine ⟨?_, rfl, rfl, rfl⟩
  by_cases h : lp.title = rp.title
  · simp [resolveWithMerge, h]
  · simp [resolveWithMerge, h]

/-- Counterexample to C5 as stated: for concrete documents whose `settings`
differ, the merge keeps the remote `settings`, not the local one. -/
theorem merge_scalar_fields_cex :
    (resolveWithMerge sampleProject
        { sampleProject with
          settings := { targetWordCount := some 2000, color := none } }
        50).settings =
      { targetWordCount := some 2000, color := none } ∧
    ({ targetWordCount := some 2000, color := none } : ProjectSettings) ≠
      sampleProject.settings := by
  decide

/-- Claim C7 (amended): every operation of the document store *except*
`setLastKnownTimestamp` preserves the invariant that a clean store
(`isDirty = false`) has `lastKnownTimestamp` equal to the document's
`updatedAt` and the document's `version` equal to the last accepted version
(the ghost `acceptedVersion` stamped by `setProject`/`markClean`).
`setLastKnownTimestamp` can break it by moving `lastKnownTimestamp` without
touching the document (see the counterexample). -/
theorem store_ops_preserve_clean_invariant (a : StoreAction)
    (s : StoreState) (hinv : invHolds s = true)
    (hnot : ∀ t, a ≠ StoreAction.setLastKnownTimestamp t) :
    invHolds (applyAction a s) = true := by
  cases a with
  | setProject p =>
    cases p with
    | none => simp [applyAction, invHolds]
    | some q => simp [applyAction, invHolds]
  | updateProjectMeta patch => exact invHolds_mutate s _ hinv (fun p => rfl)
  | setLoading b => exact hinv
  | setError e => exact hinv
  | markDirty =>
    cases hp : s.project with
    | none => simp [applyAction, invHolds, hp]
    | some p =>
      have h2 := invHolds_version_part s hinv p hp
      simp [applyAction, invHolds, hp, h2]
  | markClean t v =>
    cases hp : s.project with
    | none => cases v <;> simp [applyAction, markCleanStore, invHolds, hp]
    | some p =>
      cases v with
      | none =>
        have h2 := invHolds_version_part s hinv p hp
        simp [applyAction, markCleanStore, invHolds, hp, h2]
      | some v' => simp [applyAction, markCleanStore, invHolds, hp]
  | setSaving b => exact hinv
  | setSaveError e => exact hinv
  | setLastKnownTimestamp t => exact absurd rfl (hnot t)
  | addCharacter c => exact invHolds_mutate s _ hinv (fun p => rfl)
  | updateCharacter i pay now => exact invHolds_mutate s _ hinv (fun p => rfl)
  | deleteCharacter i => exact invHolds_mutate s _ hinv (fun p => rfl)
  | reorderCharacters ids => exact invHolds_mutate s _ hinv (fun p => rfl)
  | addScene sc => exact invHolds_mutate s _ hinv (fun p => rfl)
  | updateScene i pay now => exact invHolds_mutate s _ hinv (fun p => rfl)
  | deleteScene i => exact invHolds_mutate s _ hinv (fun p => rfl)
  | reorderScenes ids => exact invHolds_mutate s _ hinv (fun p => rfl)
  | addPlotline pl => exact invHolds_mutate s _ hinv (fun p => rfl)
  | updatePlotline i pay => exact invHolds_mutate s _ hinv (fun p => rfl)
  | deletePlotline i => exact invHolds_mutate s _ hinv (fun p => rfl)
  | reorderPlotlines ids => exact invHolds_mutate s _ hinv (fun p => rfl)
  | addLocation l => exact invHolds_mutate s _ hinv (fun p => rfl)
  | updateLocation i pay => exact invHolds_mutate s _ hinv (fun p => rfl)
  | deleteLocation i => exact invHolds_mutate s _ hinv (fun p => rfl)
  | reorderLocations ids => exact invHolds_mutate s _ hinv (fun p => rfl)
  | addNote n => exact invHolds_mutate s _ hinv (fun p => rfl)
  | updateNote i pay now => exact invHolds_mutate s _ hinv (fun p => rfl)
  | deleteNote i => exact invHolds_mutate s _ hinv (fun p => rfl)
  | addBranch b => exact invHolds_mutate s _ hinv (fun p => rfl)
  | updateBranch i pay now => exact invHolds_mutate s _ hinv (fun p => rfl)
  | deleteBranch i => exact invHolds_mutate s _ hinv (fun p => rfl)
  | addSceneToBranch bid sc now => exact invHolds_mutate s _ hinv (fun p => rfl)
  | updateBranchScene bid sid pay now =>
    exact invHolds_mutate s _ hinv (fun p => rfl)
  | deleteBranchScene bid sid now =>
    exact invHolds_mutate s _ hinv (fun p => rfl)
  | reorderBranchScenes bid ids now =>
    exact invHolds_mutate s _ hinv (fun p => rfl)
  | updateTimeline t => exact invHolds_mutate s _ hinv (fun p => rfl)
  | addTimelineEvent e => exact invHolds_mutate s _ hinv (fun p => rfl)
  | updateTimelineEvent i pay => exact invHolds_mutate s _ hinv (fun p => rfl)
  | deleteTimelineEvent i => exact invHolds_mutate s _ hinv (fun p => rfl)
  | reorderTimeline ids => exact invHolds_mutate s _ hinv (fun p => rfl)

/-- Witness for the amended C7: a mutation on the concrete clean store
preserves the invariant. -/
theorem store_ops_preserve_clean_invariant_witness :
    invHolds sampleCleanStore = true ∧
    invHolds (applyAction StoreAction.markDirty sampleCleanStore) = true :=
  ⟨by decide,
   store_ops_preserve_clean_invariant StoreAction.markDirty sampleCleanStore
     (by decide) (fun t h => nomatch h)⟩

/-- Counterexample to C7 as stated: the store operation
`setLastKnownTimestamp` applied to a concrete clean, consistent state moves
`lastKnownTimestamp` away from the document's `updatedAt` while leaving
`isDirty = false`, breaking the invariant. -/
theorem store_setLastKnownTimestamp_breaks_invariant :
    invHolds sampleCleanStore = true ∧
    invHolds
        (applyAction (StoreAction.setLastKnownTimestamp 99)
          sampleCleanStore) =
      false := by
  decide

/-- Claim C8: the max-staleness timer is armed on the first mutation of a
dirty period, is never reset by further mutations (any armed deadline is
preserved by `schedule`), so under continuous mutation the deadline stays
at `t0 + maxIntervalMs` and the timer's save call issues an attempt (the
guard does not skip a dirty, idle, enabled session). -/
theorem bounded_staleness :
    (∀ (now d m : Nat) (dirty : Bool) (s : SchedulerState) (v : Nat),
      s.maxDeadline = some v →
      (schedule now d m dirty s).maxDeadline = some v) ∧
    (∀ (now d m : Nat) (s : SchedulerState), s.maxDeadline = none →
      (schedule now d m true s).maxDeadline = some (now + m)) ∧
    (∀ (d m t0 : Nat) (ts : List Nat),
      (runMutations d m t0 ts).maxDeadline = some (t0 + m)) ∧
    (∀ (c : ClientState) (resp : SaveResponse),
      c.store.isDirty = true → c.isSavingRef = false →
      c.store.project ≠ none → c.enabled = true →
      (saveStep c resp).2 ≠ SaveOutcome.skipped) := by
  refine ⟨maxDeadline_schedule_preserved, ?_, ?_, ?_⟩
  · intro now d m s h
    simp [schedule, h]
  · intro d m t0 ts
    unfold runMutations
    exact maxDeadline_foldl_preserved d m ts _ (t0 + m) (by simp [schedule])
  · intro c resp hd hs hp he
    cases resp with
    | ok t v => simp [saveStep, hd, hs, hp, he]
    | httpError st =>
      by_cases h409 : st = 409 <;> simp [saveStep, hd, hs, hp, he, h409]
    | netError => simp [saveStep, hd, hs, hp, he]

/-- Witness for C8: with debounce 2000 ms and ceiling 30000 ms, mutations
at 0, 2000, 4000 and 6000 ms leave the max deadline at 30000 ms; an armed
deadline survives a later mutation; and the dirty concrete session's save
call is not skipped. -/
theorem bounded_staleness_witness :
    (runMutations 2000 30000 0 [2000, 4000, 6000]).maxDeadline =
        some 30000 ∧
    (schedule 5 2000 30000 true ⟨none, some 77⟩).maxDeadline = some 77 ∧
    (saveStep sampleClient SaveResponse.netError).2 ≠
        SaveOutcome.skipped := by
  refine ⟨?_, ?_, ?_⟩
  · simpa using bounded_staleness.2.2.1 2000 30000 0 [2000, 4000, 6000]
  · exact bounded_staleness.1 5 2000 30000 true ⟨none, some 77⟩ 77 rfl
  · exact bounded_staleness.2.2.2 sampleClient SaveResponse.netError rfl rfl
      (by decide) rfl

/-- Claim C9 (amended): the `PUT` save handler records no version snapshot
on any path (accepted saves included); snapshots are recorded by the manual
`POST .../versions` endpoint (and by version restore), and after each
`createVersionSnapshot`, at most the newest 10 snapshots by `version` are
retained, every evicted snapshot being no newer than every retained one. -/
theorem snapshot_retention :
    (∀ (sess : Option String) (pid : String) (stored : Option Project)
        (snaps : List VersionSnapshot) (req : PutRequest) (now : Nat),
      (PUT sess pid stored snaps req now).snaps = snaps) ∧
    (∀ (u pid : String) (p : Project) (snaps : List VersionSnapshot)
        (now : Nat), p.userId = u →
      versionsPOST (some u) pid (some p) snaps now =
        (VersionsPostResult.ok p.version,
          createVersionSnapshot now pid p snaps)) ∧
    (∀ (snaps : List VersionSnapshot), snaps.Nodup →
      (cleanupOldVersions snaps).length ≤ 10 ∧
      (∀ s, s ∈ cleanupOldVersions snaps ↔
        s ∈ (sortByVersionDesc snaps).take 10) ∧
      (∀ x y, x ∈ cleanupOldVersions snaps → y ∈ snaps →
        y ∉ cleanupOldVersions snaps → y.version ≤ x.version)) := by
  refine ⟨?_, ?_, ?_⟩
  · intro sess pid stored snaps req now
    cases sess with
    | none => rfl
    | some u =>
      cases stored with
      | none => rfl
      | some sp =>
        by_cases h1 : sp.userId ≠ u
        · simp [PUT, h1]
        · by_cases h2 : req.forceOverwrite = false ∧
              req.lastKnownTimestamp ≠ sp.updatedAt
          · simp [PUT, h1, h2]
          · simp [PUT, h1, h2]
  · intro u pid p snaps now hown
    simp [versionsPOST, hown]
  · intro snaps h
    exact ⟨length_cleanupOldVersions snaps h,
      fun s => mem_cleanupOldVersions snaps h s,
      fun x y hx hy hyn => version_le_of_evicted snaps h x y hx hy hyn⟩

/-- Witness for the amended C9 at concrete inputs: an accepted `PUT` leaves
the snapshot log unchanged, the manual endpoint records through
`createVersionSnapshot`, and the pruned log stays within 10 entries. -/
theorem snapshot_retention_witness :
    (PUT (some "u1") "p1" (some sampleProject) [sampleSnap]
        ⟨sampleProject, 10, false⟩ 20).snaps = [sampleSnap] ∧
    versionsPOST (some "u1") "p1" (some sampleProject) [] 20 =
      (VersionsPostResult.ok sampleProject.version,
        createVersionSnapshot 20 "p1" sampleProject []) ∧
    (cleanupOldVersions [sampleSnap]).length ≤ 10 :=
  ⟨snapshot_retention.1 (some "u1") "p1" (some sampleProject) [sampleSnap]
      ⟨sampleProject, 10, false⟩ 20,
   snapshot_retention.2.1 "u1" "p1" sampleProject [] 20 rfl,
   (snapshot_retention.2.2 [sampleSnap] (by decide)).1⟩

/-- Counterexample to C9 as stated: a concrete accepted save (the handler
returns `ok`) records no snapshot — the version log stays empty. -/
theorem put_accepted_records_no_snapshot_cex :
    (PUT (some "u1") "p1" (some sampleProject) []
        ⟨sampleProject, 10, false⟩ 20).result =
      PutResult.ok 20 2 ∧
    (PUT (some "u1") "p1" (some sampleProject) []
        ⟨sampleProject, 10, false⟩ 20).snaps = [] := by
  decide

end StoryPlotter
